import Mathlib

/-!
Verification of `pgxnclient/commands/install.py`: the download/checksum,
install/uninstall/check pipelines and the load/unload extension-activation
engine, shallowly embedded as pure Lean functions over explicit
environments (filesystem predicates, confirmation answers, process
exit codes) and event traces.
-/

namespace Pgxn

/-! ### String helpers mirroring `os.path.basename` and `str.rsplit` -/

/-- One step of scanning a path left to right: a `/` resets the
accumulated final component, any other character extends it.
`os.path.basename` keeps what is after the last slash. -/
def baseStep (acc : List Char) (c : Char) : List Char :=
  if c = '/' then [] else acc ++ [c]

/-- `os.path.basename`: the part of `s` after the last `/`
(the whole string when there is no `/`). -/
def basename (s : String) : String :=
  String.mk (s.data.foldl baseStep [])

/-- `s.rsplit('.', 1)[0]`: everything before the last `.`,
or the whole string when there is no dot. -/
def rsplitDot (s : String) : String :=
  let r := s.data.reverse
  if r.contains '.' then String.mk ((r.dropWhile (fun c => c ≠ '.')).tail.reverse)
  else s

/-- Python's `str.endswith`: does `s` end with `t` (compared on the
character lists). -/
def strEndsWith (s t : String) : Bool :=
  decide (t.data.length ≤ s.data.length) &&
    (s.data.drop (s.data.length - t.data.length) == t.data)

/-! ### Errors raised by the commands (`PgxnClientException` and friends) -/

/-- The failures the embedded commands can raise. -/
inductive Err where
  | badChecksum
  | configureFailed (rc : Nat)
  | makeFailed (cmd : List String) (rc : Nat)
  | psqlFailed (rc : Nat)
  | sqlFileNotFound (name fname : String)
  | userAborted
deriving DecidableEq, Repr

/-! ### Checksum verifier (`Download.verify_checksum`) -/

/-- An external streaming hash collaborator (`pgxnclient.utils.sha1`,
i.e. `hashlib.sha1`): an initial state, an `update` taking a chunk of
bytes, and a final `hexdigest`. -/
structure HashImpl (σ : Type) where
  init : σ
  update : σ → List Nat → σ
  hexdigest : σ → String

/-- A streaming hash is coherent when feeding two chunks in sequence
equals feeding their concatenation and feeding nothing changes nothing
(both true of any real hash's `update`). -/
def HashImpl.Coherent (h : HashImpl σ) : Prop :=
  (∀ s a b, h.update (h.update s a) b = h.update s (a ++ b)) ∧
  (∀ s, h.update s [] = s)

/-- The digest `hashlib` assigns to a whole byte sequence. -/
def HashImpl.digestOf (h : HashImpl σ) (contents : List Nat) : String :=
  h.hexdigest (h.update h.init contents)

/-- The `f.read(8192)` loop: split the file contents into chunks of
8192 bytes (the last one shorter). -/
def readChunks (l : List Nat) : List (List Nat) :=
  if h : l = [] then []
  else l.take 8192 :: readChunks (l.drop 8192)
termination_by l.length
decreasing_by
  simp only [List.length_drop]
  have : 0 < l.length := List.length_pos.mpr h
  omega

/-- The digest computed by the chunked read loop of `verify_checksum`. -/
def streamDigest (h : HashImpl σ) (contents : List Nat) : String :=
  h.hexdigest ((readChunks contents).foldl h.update h.init)

/-- Outcome of `verify_checksum`: whether the file is still on disk
afterwards, and success or the raised error. -/
structure VerifyOut where
  filePresent : Bool
  result : Except Err Unit
deriving Repr

/-- `Download.verify_checksum`: stream the file through sha1 in 8 KiB
chunks; on digest mismatch `os.unlink` the file and raise
`BadChecksum`; on match return with the file untouched. -/
def verify_checksum (h : HashImpl σ) (contents : List Nat) (chk : String) :
    VerifyOut :=
  let sha := streamDigest h contents
  if sha ≠ chk then ⟨false, .error .badChecksum⟩
  else ⟨true, .ok ()⟩

theorem readChunks_join (l : List Nat) : (readChunks l).flatten = l := by
  rw [readChunks]
  by_cases h : l = []
  · simp [h]
  · simp only [h, dite_false, List.flatten_cons]
    rw [readChunks_join (l.drop 8192), List.take_append_drop]
termination_by l.length
decreasing_by
  simp only [List.length_drop]
  have : 0 < l.length := List.length_pos.mpr h
  omega

theorem streamDigest_eq_digestOf (h : HashImpl σ) (hc : h.Coherent)
    (contents : List Nat) :
    streamDigest h contents = h.digestOf contents := by
  by_cases hne : contents = []
  · subst hne
    unfold streamDigest HashImpl.digestOf
    rw [hc.2, readChunks]
    simp
  unfold streamDigest HashImpl.digestOf
  have key : ∀ (cs : List (List Nat)) (s : σ) (a : List Nat),
      cs.foldl h.update (h.update s a) = h.update s (a ++ cs.flatten) := by
    intro cs
    induction cs with
    | nil => intro s a; simp [hc.2]
    | cons c rest ih =>
      intro s a
      rw [List.foldl_cons, hc.1, ih]
      simp
  cases hcr : readChunks contents with
  | nil =>
    have hj := readChunks_join contents
    rw [hcr] at hj
    exact absurd hj.symm hne
  | cons c rest =>
    have hj := readChunks_join contents
    rw [hcr, List.flatten_cons] at hj
    rw [List.foldl_cons, key, hj]

/-! ### Build pipeline (`InstallUninstall`, `Install`, `Uninstall`, `Check`) -/

/-- Observable steps of the install/uninstall/check pipelines:
running the configure script, a `make` invocation (`run_make`), and
copying a regression artifact into the current directory. -/
inductive BEv where
  | configure
  | make (cmd : List String) (sudoFlag : Bool)
  | copy (src dst : String)
deriving DecidableEq, Repr

/-- Environment of one install/uninstall/check pipeline invocation:
which paths exist, the exit code of the configure script, the exit code
of each `make` command, the `--sudo` flag, and the database name of the
psql connection environment (for `check`). -/
structure BuildEnv where
  fileExists : String → Bool
  configureExit : Nat
  makeExit : List String → Nat
  sudoFlag : Bool
  pgdatabase : Option String

/-- Modelled from the spec: the external build-tool collaborator
(`WithMake.run_make`, not in this file's source): run the given make
command; a non-zero exit code is a typed fatal failure. -/
def run_make (env : BuildEnv) (cmd : List String) (sudoFlag : Bool) :
    List BEv × Except Err Unit :=
  ([.make cmd sudoFlag],
   if env.makeExit cmd ≠ 0 then .error (.makeFailed cmd (env.makeExit cmd))
   else .ok ())

/-- `InstallUninstall.maybe_run_configure`: if `<dir>/configure` does
not exist, return silently; otherwise run it and fail with a
`configure failed` error on non-zero exit. -/
def maybe_run_configure (env : BuildEnv) (dir : String) :
    List BEv × Except Err Unit :=
  if ¬ env.fileExists (dir ++ "/configure") then ([], .ok ())
  else ([.configure],
        if env.configureExit ≠ 0 then .error (.configureFailed env.configureExit)
        else .ok ())

/-- `Install._inun`: `run_make('all')` then
`run_make('install', sudoFlag=opts.sudo)`. -/
def installInun (env : BuildEnv) : List BEv × Except Err Unit :=
  let r1 := run_make env ["all"] false
  match r1.2 with
  | .error e => (r1.1, .error e)
  | .ok () =>
    let r2 := run_make env ["install"] env.sudoFlag
    (r1.1 ++ r2.1, r2.2)

/-- `Uninstall._inun`: `run_make('uninstall', sudoFlag=opts.sudo)` only. -/
def uninstallInun (env : BuildEnv) : List BEv × Except Err Unit :=
  run_make env ["uninstall"] env.sudoFlag

/-- The `installcheck` make command of `Check._inun`: a
`CONTRIB_TESTDB` assignment is appended when the psql connection
environment carries a `PGDATABASE`. -/
def checkCmd (env : BuildEnv) : List String :=
  ["installcheck"] ++
    (match env.pgdatabase with
     | some db => ["CONTRIB_TESTDB=" ++ db]
     | none => [])

/-- `Check._inun`: run `installcheck`; if it fails, copy each of
`regression.out` and `regression.diffs` that exists in the source
directory into the current directory, then re-raise the failure. -/
def checkInun (env : BuildEnv) (pdir : String) : List BEv × Except Err Unit :=
  let r := run_make env (checkCmd env) false
  match r.2 with
  | .ok () => (r.1, .ok ())
  | .error e =>
    let copies := (["out", "diffs"].filter
        (fun ext => env.fileExists (pdir ++ "/regression." ++ ext))).map
      (fun ext => BEv.copy (pdir ++ "/regression." ++ ext) ("./regression." ++ ext))
    (r.1 ++ copies, .error e)

/-- `InstallUninstall._run` after the source has been acquired into
`pdir`: `maybe_run_configure(pdir)` then the subclass `_inun(pdir)`. -/
def pipelineRun (env : BuildEnv) (dir : String)
    (inun : BuildEnv → List BEv × Except Err Unit) :
    List BEv × Except Err Unit :=
  let c := maybe_run_configure env dir
  match c.2 with
  | .error e => (c.1, .error e)
  | .ok () =>
    let r := inun env
    (c.1 ++ r.1, r.2)

/-- The `install` command's pipeline from the acquired source on. -/
def installRun (env : BuildEnv) (dir : String) : List BEv × Except Err Unit :=
  pipelineRun env dir installInun

/-- The `uninstall` command's pipeline from the acquired source on. -/
def uninstallRun (env : BuildEnv) (dir : String) : List BEv × Except Err Unit :=
  pipelineRun env dir uninstallInun

/-! ### Extension activation engine (`LoadUnload`, `Load`, `Unload`) -/

/-- The confirmation prompts `load_ext` can raise, identified by their
decision point. -/
inductive Prompt where
  | looseLoad (name : String)
  | looseUnload (name : String)
  | guessedFile (name fn : String)
  | unloadFile (name fn : String)
deriving DecidableEq, Repr

/-- What `load_sql` feeds to psql: a file opened on stdin, or a data
string piped in (used for `CREATE EXTENSION` / `DROP EXTENSION`). -/
inductive SqlInput where
  | file (fn : String)
  | data (s : String)
deriving DecidableEq, Repr

/-- Observable steps of `load_ext`: the entry debug log, the non-SQL
skip, each candidate-path check of `find_sql_file`, each confirmation
prompt, each psql invocation, and the already-loaded skip. -/
inductive Ev where
  | debugLoad (name : String) (file : Option String)
  | debugUnload (name : String) (file : Option String)
  | skipNonSql (name file : String)
  | checking (path : String)
  | confirmAsked (p : Prompt)
  | runSql (inp : SqlInput)
  | skipLoaded (fn : String)
deriving DecidableEq, Repr

/-- Environment of one load/unload run: the server version reported by
`get_pg_version`, the sharedir from `pg_config`, which paths exist,
the user's answer to each prompt, and psql's exit code per input. -/
structure PgEnv where
  pgver : Nat × Nat × Nat
  sharedir : String
  fileExists : String → Bool
  confirmAck : Prompt → Bool
  psqlExit : SqlInput → Nat

/-- The Python tuple comparison `pgver >= (9, 1, 0)` (lexicographic on
the three components). -/
def pgAtLeast910 (v : Nat × Nat × Nat) : Bool :=
  decide (9 < v.1) || (decide (9 = v.1) &&
    (decide (1 < v.2.1) || (decide (1 = v.2.1) && decide (0 ≤ v.2.2))))

/-- `LoadUnload.is_extension`: does
`<sharedir>/extension/<name>.control` exist. -/
def is_extension (env : PgEnv) (name : String) : Bool :=
  env.fileExists (env.sharedir ++ "/extension/" ++ name ++ ".control")

/-- Modelled from the spec: the confirmation-prompt collaborator
(`Command.confirm`, not in this file's source): ask the user; on
decline, abort the current activation with a user-cancellation
outcome. -/
def confirmStep (env : PgEnv) (p : Prompt) : List Ev × Except Err Unit :=
  ([.confirmAsked p], if env.confirmAck p then .ok () else .error .userAborted)

/-- `LoadUnload.load_sql`: pipe a file or a data string into psql; a
non-zero exit is fatal. -/
def load_sql (env : PgEnv) (inp : SqlInput) : List Ev × Except Err Unit :=
  ([.runSql inp],
   if env.psqlExit inp ≠ 0 then .error (.psqlFailed (env.psqlExit inp))
   else .ok ())

/-- The `for fn in tries` loop of `find_sql_file`: skip candidates
already tried, log each checked full path, return the first existing
one. -/
def scanTries (env : PgEnv) (tried : List String) :
    List String → List Ev × Option String
  | [] => ([], none)
  | fn :: rest =>
    if fn ∈ tried then scanTries env tried rest
    else
      let full := env.sharedir ++ "/" ++ fn
      if env.fileExists full then ([.checking full], some full)
      else
        let r := scanTries env (fn :: tried) rest
        (Ev.checking full :: r.1, r.2)

/-- `LoadUnload.find_sql_file`: take the basename of the requested SQL
file, try `<name>/<file>`, `<file-sans-extension>/<file>` and
`contrib/<file>` under the server's sharedir, return the first existing
full path, or fail naming the extension and the file. -/
def find_sql_file (env : PgEnv) (name sqlfile : String) :
    List Ev × Except Err String :=
  let base := basename sqlfile
  let tries := [name ++ "/" ++ base,
                rsplitDot base ++ "/" ++ base,
                "contrib/" ++ base]
  let r := scanTries env [] tries
  (r.1, match r.2 with
        | some full => .ok full
        | none => .error (.sqlFileNotFound name base))

/-- The tail of `Load.load_ext` (after the version/control branch):
guess the filename when absent, locate the SQL file, confirm a guessed
file, then execute it unless it is already in this run's loaded set. -/
def loadExtFile (env : PgEnv) (loaded : List String) (name : String)
    (sqlfile : Option String) : List Ev × List String × Except Err Unit :=
  let g := match sqlfile with
    | none => (true, name ++ ".sql")
    | some f => (false, f)
  let fr := find_sql_file env name g.2
  match fr.2 with
  | .error e => (fr.1, loaded, .error e)
  | .ok fn =>
    let c : List Ev × Except Err Unit :=
      if g.1 then confirmStep env (.guessedFile name fn) else ([], .ok ())
    match c.2 with
    | .error e => (fr.1 ++ c.1, loaded, .error e)
    | .ok () =>
      if fn ∈ loaded then (fr.1 ++ c.1 ++ [.skipLoaded fn], loaded, .ok ())
      else
        let r := load_sql env (.file fn)
        match r.2 with
        | .error e => (fr.1 ++ c.1 ++ r.1, loaded, .error e)
        | .ok () => (fr.1 ++ c.1 ++ r.1, loaded ++ [fn], .ok ())

/-- The version/control branch of `Load.load_ext`: native
`CREATE EXTENSION` when the server is at least 9.1.0 and a control file
exists; a loose-objects confirmation then the file path otherwise. -/
def loadExtCore (env : PgEnv) (loaded : List String) (name : String)
    (sqlfile : Option String) : List Ev × List String × Except Err Unit :=
  if pgAtLeast910 env.pgver then
    if is_extension env name then
      let r := load_sql env (.data ("CREATE EXTENSION " ++ name ++ ";"))
      (r.1, loaded, r.2)
    else
      let c := confirmStep env (.looseLoad name)
      match c.2 with
      | .error e => (c.1, loaded, .error e)
      | .ok () =>
        let r := loadExtFile env loaded name sqlfile
        (c.1 ++ r.1, r.2.1, r.2.2)
  else loadExtFile env loaded name sqlfile

/-- `Load.load_ext(name, sqlfile)` with the run's loaded-file set
(`self._loaded`) as explicit state. -/
def loadExt (env : PgEnv) (loaded : List String) (name : String)
    (sqlfile : Option String) : List Ev × List String × Except Err Unit :=
  let e0 : List Ev := [.debugLoad name sqlfile]
  match sqlfile with
  | some f =>
    if strEndsWith f ".sql" then
      let r := loadExtCore env loaded name (some f)
      (e0 ++ r.1, r.2.1, r.2.2)
    else (e0 ++ [.skipNonSql name f], loaded, .ok ())
  | none =>
    let r := loadExtCore env loaded name none
    (e0 ++ r.1, r.2.1, r.2.2)

/-- The tail of `Unload.load_ext`: default the filename to
`<name>.sql` when absent, prepend `uninstall_`, locate the file,
always confirm, then execute it (no loaded-set guard). -/
def unloadExtFile (env : PgEnv) (name : String) (sqlfile : Option String) :
    List Ev × Except Err Unit :=
  let fname := "uninstall_" ++ sqlfile.getD (name ++ ".sql")
  let fr := find_sql_file env name fname
  match fr.2 with
  | .error e => (fr.1, .error e)
  | .ok fn =>
    let c := confirmStep env (.unloadFile name fn)
    match c.2 with
    | .error e => (fr.1 ++ c.1, .error e)
    | .ok () =>
      let r := load_sql env (.file fn)
      (fr.1 ++ c.1 ++ r.1, r.2)

/-- The version/control branch of `Unload.load_ext`: native
`DROP EXTENSION` when the server is at least 9.1.0 and a control file
exists; a loose-objects confirmation then the file path otherwise. -/
def unloadExtCore (env : PgEnv) (name : String) (sqlfile : Option String) :
    List Ev × Except Err Unit :=
  if pgAtLeast910 env.pgver then
    if is_extension env name then
      load_sql env (.data ("DROP EXTENSION " ++ name ++ ";"))
    else
      let c := confirmStep env (.looseUnload name)
      match c.2 with
      | .error e => (c.1, .error e)
      | .ok () =>
        let r := unloadExtFile env name sqlfile
        (c.1 ++ r.1, r.2)
  else unloadExtFile env name sqlfile

/-- `Unload.load_ext(name, sqlfile)`. -/
def unloadExt (env : PgEnv) (name : String) (sqlfile : Option String) :
    List Ev × Except Err Unit :=
  let e0 : List Ev := [.debugUnload name sqlfile]
  match sqlfile with
  | some f =>
    if strEndsWith f ".sql" then
      let r := unloadExtCore env name (some f)
      (e0 ++ r.1, r.2)
    else (e0 ++ [.skipNonSql name f], .ok ())
  | none =>
    let r := unloadExtCore env name none
    (e0 ++ r.1, r.2)

/-- The `for name, data in dist['provides'].items()` loop of
`Load.run`, threading the loaded-file state; an exception stops the
loop. -/
def loadRunAux (env : PgEnv) :
    List (String × Option String) → List String → List Ev × Except Err Unit
  | [], _ => ([], .ok ())
  | (n, f) :: rest, loaded =>
    let r := loadExt env loaded n f
    match r.2.2 with
    | .error e => (r.1, .error e)
    | .ok () =>
      let s := loadRunAux env rest r.2.1
      (r.1 ++ s.1, s.2)

/-- `Load.run`: process the `provides` entries in listed order,
starting from a fresh (empty) loaded-file set. -/
def loadRun (env : PgEnv) (provides : List (String × Option String)) :
    List Ev × Except Err Unit :=
  loadRunAux env provides []

/-- The loop of `Unload.run` over the reversed `provides` list; an
exception stops the loop. -/
def unloadRunAux (env : PgEnv) :
    List (String × Option String) → List Ev × Except Err Unit
  | [] => ([], .ok ())
  | (n, f) :: rest =>
    let r := unloadExt env n f
    match r.2 with
    | .error e => (r.1, .error e)
    | .ok () =>
      let s := unloadRunAux env rest
      (r.1 ++ s.1, s.2)

/-- `Unload.run`: `provs = dist['provides'].items(); provs.reverse()`,
then process each entry. -/
def unloadRun (env : PgEnv) (provides : List (String × Option String)) :
    List Ev × Except Err Unit :=
  unloadRunAux env provides.reverse

/-- The `(name, file)` pairs a load trace records as processed (one
`debugLoad` entry is logged at the top of each `Load.load_ext` call). -/
def processedLoad : List Ev → List (String × Option String)
  | [] => []
  | Ev.debugLoad n f :: r => (n, f) :: processedLoad r
  | _ :: r => processedLoad r

/-- The `(name, file)` pairs an unload trace records as processed. -/
def processedUnload : List Ev → List (String × Option String)
  | [] => []
  | Ev.debugUnload n f :: r => (n, f) :: processedUnload r
  | _ :: r => processedUnload r

/-! ### Concrete instances used to witness the theorems -/

/-- A toy coherent streaming hash for witnesses: the state accumulates
the bytes and the digest renders them. -/
def demoHash : HashImpl (List Nat) :=
  ⟨[], (· ++ ·), fun s => toString s⟩

theorem demoHash_coherent : demoHash.Coherent :=
  ⟨fun s a b => (List.append_assoc s a b), fun s => List.append_nil s⟩

/-- A build environment with no configure script and all tools
succeeding. -/
def benvPlain : BuildEnv :=
  ⟨fun _ => false, 0, fun _ => 0, false, none⟩

/-- A build environment with a configure script that exits with 7. -/
def benvBadCfg : BuildEnv :=
  ⟨fun _ => true, 7, fun _ => 0, false, none⟩

/-- A check environment where `installcheck` exits with 1 and both
regression artifacts exist. -/
def benvCheckFail : BuildEnv :=
  ⟨fun _ => true, 0, fun _ => 1, false, some "db"⟩

/-! ### C1 — checksum verification -/

/-- C1: for any coherent streaming hash, a file whose digest equals the
expected digest passes `verify_checksum` and stays on disk; a file
whose digest differs is deleted and the call fails with
`BadChecksum`. -/
theorem c1_verify_checksum (h : HashImpl σ) (hc : h.Coherent)
    (contents : List Nat) (chk : String) :
    (h.digestOf contents = chk →
      verify_checksum h contents chk = ⟨true, .ok ()⟩) ∧
    (h.digestOf contents ≠ chk →
      verify_checksum h contents chk = ⟨false, .error .badChecksum⟩) := by
  have hd := streamDigest_eq_digestOf h hc contents
  constructor
  · intro he
    unfold verify_checksum
    rw [hd, he]
    simp
  · intro he
    unfold verify_checksum
    rw [hd]
    simp [he]

/-- C1 witness: the toy hash on the file `[1, 2]`, once against its own
digest and once against a wrong one. -/
theorem c1_verify_checksum_witness :
    verify_checksum demoHash [1, 2] (demoHash.digestOf [1, 2]) =
      ⟨true, .ok ()⟩ ∧
    verify_checksum demoHash [1, 2] "nope" =
      ⟨false, .error .badChecksum⟩ :=
  ⟨(c1_verify_checksum demoHash demoHash_coherent [1, 2]
      (demoHash.digestOf [1, 2])).1 rfl,
   (c1_verify_checksum demoHash demoHash_coherent [1, 2] "nope").2
      (by decide)⟩

/-! ### C5 — install/uninstall pipeline order -/

/-- C5 counterexample: with no configure script and all tools
succeeding, the `uninstall` pipeline runs only the `uninstall` make
target — the `all` target is never run, contradicting the claim that
`all` runs before `uninstall`. -/
theorem c5_uninstall_no_all :
    (uninstallRun benvPlain "src").1 = [BEv.make ["uninstall"] false] ∧
    BEv.make ["all"] false ∉ (uninstallRun benvPlain "src").1 := by
  decide

/-- C5 (amended): after acquisition, `install` runs configure (when
present), then the `all` target, then the `install` target, in that
order; `uninstall` runs configure (when present) and then the
`uninstall` target directly, never the `all` target. -/
theorem c5_pipeline_order (env : BuildEnv) (dir : String)
    (hc : env.configureExit = 0) (ha : env.makeExit ["all"] = 0)
    (hi : env.makeExit ["install"] = 0) (hu : env.makeExit ["uninstall"] = 0) :
    installRun env dir =
      ((if env.fileExists (dir ++ "/configure") then [BEv.configure] else []) ++
        [BEv.make ["all"] false, BEv.make ["install"] env.sudoFlag], .ok ()) ∧
    uninstallRun env dir =
      ((if env.fileExists (dir ++ "/configure") then [BEv.configure] else []) ++
        [BEv.make ["uninstall"] env.sudoFlag], .ok ()) ∧
    BEv.make ["all"] false ∉ (uninstallRun env dir).1 := by
  unfold installRun uninstallRun pipelineRun maybe_run_configure
    installInun uninstallInun run_make
  by_cases hcf : env.fileExists (dir ++ "/configure") <;>
    simp [hcf, hc, ha, hi, hu]

/-- C5 (amended) witness: the pipelines on a configure-less source with
all tools succeeding. -/
theorem c5_pipeline_order_witness :
    installRun benvPlain "src" =
      ([BEv.make ["all"] false, BEv.make ["install"] false], .ok ()) ∧
    uninstallRun benvPlain "src" =
      ([BEv.make ["uninstall"] false], .ok ()) := by
  have h := c5_pipeline_order benvPlain "src" rfl rfl rfl rfl
  refine ⟨?_, ?_⟩
  · have := h.1
    simpa [benvPlain] using this
  · have := h.2.1
    simpa [benvPlain] using this

/-! ### C7 — conditional configure step -/

/-- C7: when no configure script exists the configure step is skipped
without error and the build and install/uninstall targets still run;
when a configure script exists and exits non-zero, the pipeline fails
with the configure error and no build step runs. -/
theorem c7_configure_conditional (env : BuildEnv) (dir : String) :
    (env.fileExists (dir ++ "/configure") = false →
      env.makeExit ["all"] = 0 → env.makeExit ["install"] = 0 →
      env.makeExit ["uninstall"] = 0 →
      installRun env dir =
        ([BEv.make ["all"] false, BEv.make ["install"] env.sudoFlag], .ok ()) ∧
      uninstallRun env dir =
        ([BEv.make ["uninstall"] env.sudoFlag], .ok ())) ∧
    (env.fileExists (dir ++ "/configure") = true → env.configureExit ≠ 0 →
      installRun env dir =
        ([BEv.configure], .error (.configureFailed env.configureExit)) ∧
      uninstallRun env dir =
        ([BEv.configure], .error (.configureFailed env.configureExit))) := by
  constructor
  · intro hcf ha hi hu
    unfold installRun uninstallRun pipelineRun maybe_run_configure
      installInun uninstallInun run_make
    simp [hcf, ha, hi, hu]
  · intro hcf hrc
    unfold installRun uninstallRun pipelineRun maybe_run_configure
    simp [hcf, hrc]

/-- C7 witness: a configure-less source runs both make targets; a
failing configure script aborts both pipelines before any make. -/
theorem c7_configure_conditional_witness :
    installRun benvPlain "src" =
      ([BEv.make ["all"] false, BEv.make ["install"] false], .ok ()) ∧
    installRun benvBadCfg "src" =
      ([BEv.configure], .error (.configureFailed 7)) :=
  ⟨((c7_configure_conditional benvPlain "src").1 rfl rfl rfl rfl).1,
   ((c7_configure_conditional benvBadCfg "src").2 rfl (by decide)).1⟩

/-! ### C9 — regression artifacts preserved on check failure -/

/-- C9: when `installcheck` fails, each of `regression.out` and
`regression.diffs` that exists in the source directory is copied into
the current directory, and the original make failure is re-raised
unchanged. -/
theorem c9_check_artifacts (env : BuildEnv) (pdir : String)
    (hrc : env.makeExit (checkCmd env) ≠ 0) :
    (env.fileExists (pdir ++ "/regression." ++ "out") = true →
      BEv.copy (pdir ++ "/regression." ++ "out") ("./regression." ++ "out") ∈
        (checkInun env pdir).1) ∧
    (env.fileExists (pdir ++ "/regression." ++ "diffs") = true →
      BEv.copy (pdir ++ "/regression." ++ "diffs") ("./regression." ++ "diffs") ∈
        (checkInun env pdir).1) ∧
    (checkInun env pdir).2 =
      .error (.makeFailed (checkCmd env) (env.makeExit (checkCmd env))) := by
  unfold checkInun run_make
  refine ⟨?_, ?_, ?_⟩
  · intro hout
    simp only [hrc, ite_true, if_pos]
    simp [hrc]
    exact ⟨"out", ⟨Or.inl rfl, hout⟩, rfl, rfl⟩
  · intro hdiffs
    simp only [hrc, ite_true, if_pos]
    simp [hrc]
    exact ⟨"diffs", ⟨Or.inr rfl, hdiffs⟩, rfl, rfl⟩
  · simp [hrc]

/-- C9 witness: a failing check with both artifacts present copies
both and re-raises the `installcheck` failure. -/
theorem c9_check_artifacts_witness :
    BEv.copy ("src" ++ "/regression." ++ "out") ("./regression." ++ "out") ∈
      (checkInun benvCheckFail "src").1 ∧
    BEv.copy ("src" ++ "/regression." ++ "diffs") ("./regression." ++ "diffs") ∈
      (checkInun benvCheckFail "src").1 ∧
    (checkInun benvCheckFail "src").2 =
      .error (.makeFailed ["installcheck", "CONTRIB_TESTDB=db"] 1) := by
  have h := c9_check_artifacts benvCheckFail "src" (by decide)
  exact ⟨h.1 rfl, h.2.1 rfl, h.2.2⟩

/-! ### C6 — SQL file candidate resolution -/

/-- The plain first-existing-candidate scan that `find_sql_file`'s
deduplicating loop implements. -/
def firstHit (env : PgEnv) : List String → Option String
  | [] => none
  | fn :: rest =>
    if env.fileExists (env.sharedir ++ "/" ++ fn) then
      some (env.sharedir ++ "/" ++ fn)
    else firstHit env rest

/-- The `tried` set only ever skips re-checks of candidates already
seen to be missing, so the loop's result is the first existing
candidate. -/
theorem scanTries_result (env : PgEnv) (cands : List String) :
    ∀ tried : List String,
      (∀ t ∈ tried, env.fileExists (env.sharedir ++ "/" ++ t) = false) →
      (scanTries env tried cands).2 = firstHit env cands := by
  induction cands with
  | nil => intro tried _; rfl
  | cons fn rest ih =>
    intro tried hinv
    by_cases hm : fn ∈ tried
    · have hex := hinv fn hm
      rw [show scanTries env tried (fn :: rest) = scanTries env tried rest by
            simp [scanTries, hm],
          show firstHit env (fn :: rest) = firstHit env rest by
            simp [firstHit, hex]]
      exact ih tried hinv
    · by_cases he : env.fileExists (env.sharedir ++ "/" ++ fn)
      · simp [scanTries, firstHit, hm, he]
      · rw [show scanTries env tried (fn :: rest) =
              (Ev.checking (env.sharedir ++ "/" ++ fn) ::
                 (scanTries env (fn :: tried) rest).1,
               (scanTries env (fn :: tried) rest).2) by
              simp [scanTries, hm, he],
            show firstHit env (fn :: rest) = firstHit env rest by
              simp [firstHit, he]]
        exact ih (fn :: tried) (by
          intro t ht
          rcases List.mem_cons.mp ht with h | h
          · subst h; simpa using he
          · exact hinv t h)

/-- C6: `find_sql_file` tries `<name>/<file>`,
`<file-sans-extension>/<file>`, `contrib/<file>` under the sharedir in
order, returning the first existing path even when a later candidate
also exists; when none exists it fails with an error naming the
extension object and the filename. -/
theorem c6_find_sql_file (env : PgEnv) (name sqlfile : String) :
    (env.fileExists (env.sharedir ++ "/" ++ (name ++ "/" ++ basename sqlfile)) = true →
      (find_sql_file env name sqlfile).2 =
        .ok (env.sharedir ++ "/" ++ (name ++ "/" ++ basename sqlfile))) ∧
    (env.fileExists (env.sharedir ++ "/" ++ (name ++ "/" ++ basename sqlfile)) = false →
      env.fileExists (env.sharedir ++ "/" ++
        (rsplitDot (basename sqlfile) ++ "/" ++ basename sqlfile)) = true →
      (find_sql_file env name sqlfile).2 =
        .ok (env.sharedir ++ "/" ++
          (rsplitDot (basename sqlfile) ++ "/" ++ basename sqlfile))) ∧
    (env.fileExists (env.sharedir ++ "/" ++ (name ++ "/" ++ basename sqlfile)) = false →
      env.fileExists (env.sharedir ++ "/" ++
        (rsplitDot (basename sqlfile) ++ "/" ++ basename sqlfile)) = false →
      env.fileExists (env.sharedir ++ "/" ++ ("contrib/" ++ basename sqlfile)) = true →
      (find_sql_file env name sqlfile).2 =
        .ok (env.sharedir ++ "/" ++ ("contrib/" ++ basename sqlfile))) ∧
    (env.fileExists (env.sharedir ++ "/" ++ (name ++ "/" ++ basename sqlfile)) = false →
      env.fileExists (env.sharedir ++ "/" ++
        (rsplitDot (basename sqlfile) ++ "/" ++ basename sqlfile)) = false →
      env.fileExists (env.sharedir ++ "/" ++ ("contrib/" ++ basename sqlfile)) = false →
      (find_sql_file env name sqlfile).2 =
        .error (.sqlFileNotFound name (basename sqlfile))) := by
  have hs := scanTries_result env
    [name ++ "/" ++ basename sqlfile,
     rsplitDot (basename sqlfile) ++ "/" ++ basename sqlfile,
     "contrib/" ++ basename sqlfile] [] (by simp)
  refine ⟨?_, ?_, ?_, ?_⟩
  · intro h1
    unfold find_sql_file
    simp only [hs, firstHit, h1, ite_true, if_pos]
  · intro h1 h2
    unfold find_sql_file
    simp only [hs, firstHit, h1, h2]
    simp
  · intro h1 h2 h3
    unfold find_sql_file
    simp only [hs, firstHit, h1, h2, h3]
    simp
  · intro h1 h2 h3
    unfold find_sql_file
    simp only [hs, firstHit, h1, h2, h3]
    simp

/-- An activation environment where only `sh/foo/foo.sql` exists. -/
def envOnlySecond : PgEnv :=
  ⟨(9, 0, 0), "sh", fun s => s == "sh/foo/foo.sql", fun _ => true, fun _ => 0⟩

/-- An activation environment where no file exists at all. -/
def envNoFiles : PgEnv :=
  ⟨(9, 0, 0), "sh", fun _ => false, fun _ => true, fun _ => 0⟩

/-- C6 witness: with only the second candidate on disk the lookup of
`dir/foo.sql` for extension `bar` resolves to `sh/foo/foo.sql`; with
nothing on disk it fails naming `bar` and `foo.sql`. -/
theorem c6_find_sql_file_witness :
    (find_sql_file envOnlySecond "bar" "dir/foo.sql").2 =
      .ok (envOnlySecond.sharedir ++ "/" ++
        (rsplitDot (basename "dir/foo.sql") ++ "/" ++ basename "dir/foo.sql")) ∧
    (find_sql_file envNoFiles "bar" "dir/foo.sql").2 =
      .error (.sqlFileNotFound "bar" (basename "dir/foo.sql")) :=
  ⟨(c6_find_sql_file envOnlySecond "bar" "dir/foo.sql").2.1
      (by decide) (by decide),
   (c6_find_sql_file envNoFiles "bar" "dir/foo.sql").2.2.2
      (by decide) (by decide) (by decide)⟩

/-! ### Trace classification helpers -/

/-- Events that are not the per-object entry log of `load_ext`. -/
def notDebug : Ev → Bool
  | .debugLoad _ _ => false
  | .debugUnload _ _ => false
  | _ => true

/-- Events the SQL-file path of `load_ext` can emit: candidate checks,
confirmation prompts, executing a file, and the already-loaded skip. -/
def fileStep : Ev → Bool
  | .checking _ => true
  | .confirmAsked _ => true
  | .runSql (.file _) => true
  | .skipLoaded _ => true
  | _ => false

/-- A native-activation psql invocation (`CREATE`/`DROP EXTENSION`
piped as data). -/
def nativeStep : Ev → Bool
  | .runSql (.data _) => true
  | _ => false

theorem fileStep_notDebug (e : Ev) (h : fileStep e = true) :
    notDebug e = true := by
  cases e with
  | runSql inp => cases inp <;> rfl
  | _ => first | rfl | (exact absurd h (by simp [fileStep]))

theorem fileStep_not_native (e : Ev) (h : fileStep e = true) :
    nativeStep e = false := by
  cases e with
  | runSql inp => cases inp <;> simp_all [fileStep, nativeStep]
  | _ => first | rfl | (exact absurd h (by simp [fileStep]))

theorem processedLoad_append (a b : List Ev) :
    processedLoad (a ++ b) = processedLoad a ++ processedLoad b := by
  induction a with
  | nil => rfl
  | cons e r ih => cases e <;> simp [processedLoad, ih]

theorem processedUnload_append (a b : List Ev) :
    processedUnload (a ++ b) = processedUnload a ++ processedUnload b := by
  induction a with
  | nil => rfl
  | cons e r ih => cases e <;> simp [processedUnload, ih]

theorem processedLoad_nil_of (tr : List Ev)
    (h : ∀ e ∈ tr, notDebug e = true) : processedLoad tr = [] := by
  induction tr with
  | nil => rfl
  | cons e r ih =>
    have he := h e (List.mem_cons_self _ _)
    have hr := ih (fun x hx => h x (List.mem_cons_of_mem _ hx))
    cases e <;> simp_all [processedLoad, notDebug]

theorem processedUnload_nil_of (tr : List Ev)
    (h : ∀ e ∈ tr, notDebug e = true) : processedUnload tr = [] := by
  induction tr with
  | nil => rfl
  | cons e r ih =>
    have he := h e (List.mem_cons_self _ _)
    have hr := ih (fun x hx => h x (List.mem_cons_of_mem _ hx))
    cases e <;> simp_all [processedUnload, notDebug]

theorem scanTries_events (env : PgEnv) (cands : List String) :
    ∀ tried, ∀ e ∈ (scanTries env tried cands).1, ∃ p, e = Ev.checking p := by
  induction cands with
  | nil => intro tried e he; simp [scanTries] at he
  | cons fn rest ih =>
    intro tried e he
    by_cases hm : fn ∈ tried
    · exact ih tried e (by simpa [scanTries, hm] using he)
    · by_cases hex : env.fileExists (env.sharedir ++ "/" ++ fn)
      · simp [scanTries, hm, hex] at he
        exact ⟨_, he⟩
      · simp [scanTries, hm, hex] at he
        rcases he with he | he
        · exact ⟨_, he⟩
        · exact ih (fn :: tried) e he

theorem find_sql_file_events (env : PgEnv) (name s : String) :
    ∀ e ∈ (find_sql_file env name s).1, ∃ p, e = Ev.checking p :=
  fun e he => scanTries_events env _ [] e he

/-! ### Branch evaluation lemmas for the activation engine -/

theorem loadExtFile_some_err (env : PgEnv) (loaded : List String)
    (name f : String) (er : Err)
    (hfr : (find_sql_file env name f).2 = .error er) :
    loadExtFile env loaded name (some f) =
      ((find_sql_file env name f).1, loaded, .error er) := by
  simp only [loadExtFile]
  rw [hfr]

theorem loadExtFile_some_ok (env : PgEnv) (loaded : List String)
    (name f fn : String)
    (hfr : (find_sql_file env name f).2 = .ok fn) :
    loadExtFile env loaded name (some f) =
      ((find_sql_file env name f).1 ++
         (if fn ∈ loaded then [Ev.skipLoaded fn] else [Ev.runSql (.file fn)]),
       if fn ∈ loaded then loaded
       else if env.psqlExit (.file fn) = 0 then loaded ++ [fn] else loaded,
       if fn ∈ loaded then .ok ()
       else if env.psqlExit (.file fn) = 0 then .ok ()
       else .error (.psqlFailed (env.psqlExit (.file fn)))) := by
  simp only [loadExtFile]
  rw [hfr]
  by_cases hmem : fn ∈ loaded
  · simp [hmem]
  · by_cases hp : env.psqlExit (.file fn) = 0 <;>
      simp [hmem, hp, load_sql]

theorem loadExtFile_none_err (env : PgEnv) (loaded : List String)
    (name : String) (er : Err)
    (hfr : (find_sql_file env name (name ++ ".sql")).2 = .error er) :
    loadExtFile env loaded name none =
      ((find_sql_file env name (name ++ ".sql")).1, loaded, .error er) := by
  simp only [loadExtFile]
  rw [hfr]

theorem loadExtFile_none_declined (env : PgEnv) (loaded : List String)
    (name fn : String)
    (hfr : (find_sql_file env name (name ++ ".sql")).2 = .ok fn)
    (hack : env.confirmAck (.guessedFile name fn) = false) :
    loadExtFile env loaded name none =
      ((find_sql_file env name (name ++ ".sql")).1 ++
         [Ev.confirmAsked (.guessedFile name fn)],
       loaded, .error .userAborted) := by
  simp only [loadExtFile]
  rw [hfr]
  simp [confirmStep, hack]

theorem loadExtFile_none_ok (env : PgEnv) (loaded : List String)
    (name fn : String)
    (hfr : (find_sql_file env name (name ++ ".sql")).2 = .ok fn)
    (hack : env.confirmAck (.guessedFile name fn) = true) :
    loadExtFile env loaded name none =
      ((find_sql_file env name (name ++ ".sql")).1 ++
         [Ev.confirmAsked (.guessedFile name fn)] ++
         (if fn ∈ loaded then [Ev.skipLoaded fn] else [Ev.runSql (.file fn)]),
       if fn ∈ loaded then loaded
       else if env.psqlExit (.file fn) = 0 then loaded ++ [fn] else loaded,
       if fn ∈ loaded then .ok ()
       else if env.psqlExit (.file fn) = 0 then .ok ()
       else .error (.psqlFailed (env.psqlExit (.file fn)))) := by
  simp only [loadExtFile]
  rw [hfr]
  by_cases hmem : fn ∈ loaded
  · simp [confirmStep, hack, hmem]
  · by_cases hp : env.psqlExit (.file fn) = 0 <;>
      simp [confirmStep, hack, hmem, hp, load_sql]

theorem unloadExtFile_err (env : PgEnv) (name : String)
    (hint : Option String) (er : Err)
    (hfr : (find_sql_file env name
        ("uninstall_" ++ hint.getD (name ++ ".sql"))).2 = .error er) :
    unloadExtFile env name hint =
      ((find_sql_file env name
          ("uninstall_" ++ hint.getD (name ++ ".sql"))).1, .error er) := by
  simp only [unloadExtFile]
  rw [hfr]

theorem unloadExtFile_declined (env : PgEnv) (name : String)
    (hint : Option String) (fn : String)
    (hfr : (find_sql_file env name
        ("uninstall_" ++ hint.getD (name ++ ".sql"))).2 = .ok fn)
    (hack : env.confirmAck (.unloadFile name fn) = false) :
    unloadExtFile env name hint =
      ((find_sql_file env name
          ("uninstall_" ++ hint.getD (name ++ ".sql"))).1 ++
         [Ev.confirmAsked (.unloadFile name fn)], .error .userAborted) := by
  simp only [unloadExtFile]
  rw [hfr]
  simp [confirmStep, hack]

theorem unloadExtFile_ok (env : PgEnv) (name : String)
    (hint : Option String) (fn : String)
    (hfr : (find_sql_file env name
        ("uninstall_" ++ hint.getD (name ++ ".sql"))).2 = .ok fn)
    (hack : env.confirmAck (.unloadFile name fn) = true) :
    unloadExtFile env name hint =
      ((find_sql_file env name
          ("uninstall_" ++ hint.getD (name ++ ".sql"))).1 ++
         [Ev.confirmAsked (.unloadFile name fn)] ++ [Ev.runSql (.file fn)],
       if env.psqlExit (.file fn) = 0 then .ok ()
       else .error (.psqlFailed (env.psqlExit (.file fn)))) := by
  simp only [unloadExtFile]
  rw [hfr]
  by_cases hp : env.psqlExit (.file fn) = 0 <;>
    simp [confirmStep, hack, hp, load_sql]

theorem loadExtFile_events (env : PgEnv) (loaded : List String)
    (name : String) (hint : Option String) :
    ∀ e ∈ (loadExtFile env loaded name hint).1, fileStep e = true := by
  intro e he
  have hfind : ∀ s, ∀ x ∈ (find_sql_file env name s).1, fileStep x = true := by
    intro s x hx
    obtain ⟨p, rfl⟩ := find_sql_file_events env name s x hx
    rfl
  cases hint with
  | some f =>
    cases hfr : (find_sql_file env name f).2 with
    | error er =>
      rw [loadExtFile_some_err env loaded name f er hfr] at he
      exact hfind _ e he
    | ok fn =>
      rw [loadExtFile_some_ok env loaded name f fn hfr] at he
      rcases List.mem_append.mp he with hh | hh
      · exact hfind _ e hh
      · by_cases hmem : fn ∈ loaded <;> simp [hmem] at hh <;> subst hh <;> rfl
  | none =>
    cases hfr : (find_sql_file env name (name ++ ".sql")).2 with
    | error er =>
      rw [loadExtFile_none_err env loaded name er hfr] at he
      exact hfind _ e he
    | ok fn =>
      by_cases hack : env.confirmAck (.guessedFile name fn)
      · rw [loadExtFile_none_ok env loaded name fn hfr hack] at he
        rcases List.mem_append.mp he with hh | hh
        · rcases List.mem_append.mp hh with hh2 | hh2
          · exact hfind _ e hh2
          · rcases List.mem_singleton.mp hh2 with rfl; rfl
        · by_cases hmem : fn ∈ loaded <;> simp [hmem] at hh <;> subst hh <;> rfl
      · rw [loadExtFile_none_declined env loaded name fn hfr
            (by simpa using hack)] at he
        rcases List.mem_append.mp he with hh | hh
        · exact hfind _ e hh
        · rcases List.mem_singleton.mp hh with rfl; rfl

theorem unloadExtFile_events (env : PgEnv) (name : String)
    (hint : Option String) :
    ∀ e ∈ (unloadExtFile env name hint).1, fileStep e = true := by
  intro e he
  have hfind : ∀ s, ∀ x ∈ (find_sql_file env name s).1, fileStep x = true := by
    intro s x hx
    obtain ⟨p, rfl⟩ := find_sql_file_events env name s x hx
    rfl
  cases hfr : (find_sql_file env name
      ("uninstall_" ++ hint.getD (name ++ ".sql"))).2 with
  | error er =>
    rw [unloadExtFile_err env name hint er hfr] at he
    exact hfind _ e he
  | ok fn =>
    by_cases hack : env.confirmAck (.unloadFile name fn)
    · rw [unloadExtFile_ok env name hint fn hfr hack] at he
      rcases List.mem_append.mp he with hh | hh
      · rcases List.mem_append.mp hh with hh2 | hh2
        · exact hfind _ e hh2
        · rcases List.mem_singleton.mp hh2 with rfl; rfl
      · rcases List.mem_singleton.mp hh with rfl; rfl
    · rw [unloadExtFile_declined env name hint fn hfr
          (by simpa using hack)] at he
      rcases List.mem_append.mp he with hh | hh
      · exact hfind _ e hh
      · rcases List.mem_singleton.mp hh with rfl; rfl

theorem loadExtCore_events (env : PgEnv) (loaded : List String)
    (name : String) (hint : Option String) :
    ∀ e ∈ (loadExtCore env loaded name hint).1,
      fileStep e = true ∨ nativeStep e = true := by
  intro e he
  simp only [loadExtCore] at he
  by_cases hpg : pgAtLeast910 env.pgver
  · simp only [hpg, ite_true, if_pos] at he
    by_cases hext : is_extension env name
    · simp only [hext, ite_true, if_pos, load_sql] at he
      rcases List.mem_singleton.mp he with rfl
      right; rfl
    · simp only [hext, Bool.false_eq_true, ite_false, confirmStep] at he
      by_cases hack : env.confirmAck (.looseLoad name)
      · simp only [hack, ite_true, if_pos] at he
        rcases List.mem_append.mp he with hh | hh
        · rcases List.mem_singleton.mp hh with rfl
          left; rfl
        · exact Or.inl (loadExtFile_events env loaded name hint e hh)
      · simp only [hack, Bool.false_eq_true, ite_false] at he
        rcases List.mem_singleton.mp he with rfl
        left; rfl
  · simp only [hpg, Bool.false_eq_true, ite_false] at he
    exact Or.inl (loadExtFile_events env loaded name hint e he)

theorem unloadExtCore_events (env : PgEnv) (name : String)
    (hint : Option String) :
    ∀ e ∈ (unloadExtCore env name hint).1,
      fileStep e = true ∨ nativeStep e = true := by
  intro e he
  simp only [unloadExtCore] at he
  by_cases hpg : pgAtLeast910 env.pgver
  · simp only [hpg, ite_true, if_pos] at he
    by_cases hext : is_extension env name
    · simp only [hext, ite_true, if_pos, load_sql] at he
      rcases List.mem_singleton.mp he with rfl
      right; rfl
    · simp only [hext, Bool.false_eq_true, ite_false, confirmStep] at he
      by_cases hack : env.confirmAck (.looseUnload name)
      · simp only [hack, ite_true, if_pos] at he
        rcases List.mem_append.mp he with hh | hh
        · rcases List.mem_singleton.mp hh with rfl
          left; rfl
        · exact Or.inl (unloadExtFile_events env name hint e hh)
      · simp only [hack, Bool.false_eq_true, ite_false] at he
        rcases List.mem_singleton.mp he with rfl
        left; rfl
  · simp only [hpg, Bool.false_eq_true, ite_false] at he
    exact Or.inl (unloadExtFile_events env name hint e he)

/-- One `Load.load_ext` call records exactly its own `(name, file)`
pair as processed. -/
theorem processedLoad_loadExt (env : PgEnv) (loaded : List String)
    (name : String) (hint : Option String) :
    processedLoad (loadExt env loaded name hint).1 = [(name, hint)] := by
  have hcore : processedLoad (loadExtCore env loaded name hint).1 = [] :=
    processedLoad_nil_of _ (by
      intro e he
      rcases loadExtCore_events env loaded name hint e he with h | h
      · exact fileStep_notDebug e h
      · cases e with
        | runSql inp => rfl
        | _ => simp_all [nativeStep])
  cases hint with
  | none =>
    have h1 : (loadExt env loaded name none).1 =
        [Ev.debugLoad name none] ++ (loadExtCore env loaded name none).1 := rfl
    rw [h1, processedLoad_append, hcore]
    rfl
  | some f =>
    by_cases hf : strEndsWith f ".sql"
    · have h1 : (loadExt env loaded name (some f)).1 =
          [Ev.debugLoad name (some f)] ++ (loadExtCore env loaded name (some f)).1 := by
        simp only [loadExt]
        rw [if_pos hf]
      rw [h1, processedLoad_append, hcore]
      rfl
    · have h1 : (loadExt env loaded name (some f)).1 =
          [Ev.debugLoad name (some f)] ++ [Ev.skipNonSql name f] := by
        simp only [loadExt]
        rw [if_neg hf]
      rw [h1, processedLoad_append]
      rfl

/-- One `Unload.load_ext` call records exactly its own `(name, file)`
pair as processed. -/
theorem processedUnload_unloadExt (env : PgEnv) (name : String)
    (hint : Option String) :
    processedUnload (unloadExt env name hint).1 = [(name, hint)] := by
  have hcore : processedUnload (unloadExtCore env name hint).1 = [] :=
    processedUnload_nil_of _ (by
      intro e he
      rcases unloadExtCore_events env name hint e he with h | h
      · exact fileStep_notDebug e h
      · cases e with
        | runSql inp => rfl
        | _ => simp_all [nativeStep])
  cases hint with
  | none =>
    have h1 : (unloadExt env name none).1 =
        [Ev.debugUnload name none] ++ (unloadExtCore env name none).1 := rfl
    rw [h1, processedUnload_append, hcore]
    rfl
  | some f =>
    by_cases hf : strEndsWith f ".sql"
    · have h1 : (unloadExt env name (some f)).1 =
          [Ev.debugUnload name (some f)] ++ (unloadExtCore env name (some f)).1 := by
        simp only [unloadExt]
        rw [if_pos hf]
      rw [h1, processedUnload_append, hcore]
      rfl
    · have h1 : (unloadExt env name (some f)).1 =
          [Ev.debugUnload name (some f)] ++ [Ev.skipNonSql name f] := by
        simp only [unloadExt]
        rw [if_neg hf]
      rw [h1, processedUnload_append]
      rfl

theorem loadRunAux_processed (env : PgEnv)
    (provides : List (String × Option String)) :
    ∀ loaded, (loadRunAux env provides loaded).2 = .ok () →
      processedLoad (loadRunAux env provides loaded).1 = provides := by
  induction provides with
  | nil => intro loaded _; rfl
  | cons p rest ih =>
    intro loaded hok
    obtain ⟨n, f⟩ := p
    simp only [loadRunAux] at hok ⊢
    cases hr : (loadExt env loaded n f).2.2 with
    | error e =>
      rw [hr] at hok
      simp at hok
    | ok u =>
      cases u
      rw [hr] at hok
      have hok' : (loadRunAux env rest (loadExt env loaded n f).2.1).2 =
          .ok () := hok
      show processedLoad ((loadExt env loaded n f).1 ++
        (loadRunAux env rest (loadExt env loaded n f).2.1).1) = (n, f) :: rest
      rw [processedLoad_append, processedLoad_loadExt, ih _ hok']
      rfl

theorem unloadRunAux_processed (env : PgEnv)
    (objs : List (String × Option String)) :
    (unloadRunAux env objs).2 = .ok () →
      processedUnload (unloadRunAux env objs).1 = objs := by
  induction objs with
  | nil => intro _; rfl
  | cons p rest ih =>
    intro hok
    obtain ⟨n, f⟩ := p
    simp only [unloadRunAux] at hok ⊢
    cases hr : (unloadExt env n f).2 with
    | error e =>
      rw [hr] at hok
      simp at hok
    | ok u =>
      cases u
      rw [hr] at hok
      have hok' : (unloadRunAux env rest).2 = .ok () := hok
      show processedUnload ((unloadExt env n f).1 ++
        (unloadRunAux env rest).1) = (n, f) :: rest
      rw [processedUnload_append, processedUnload_unloadExt, ih hok']
      rfl

/-! ### C2 — load order and reverse unload order -/

/-- C2: a successful `load` run processes exactly the `provides` pairs
in listed order, and a successful `unload` run processes exactly the
same pairs in reverse listed order. -/
theorem c2_provides_order (env : PgEnv)
    (provides : List (String × Option String)) :
    ((loadRun env provides).2 = .ok () →
      processedLoad (loadRun env provides).1 = provides) ∧
    ((unloadRun env provides).2 = .ok () →
      processedUnload (unloadRun env provides).1 = provides.reverse) := by
  constructor
  · exact fun h => loadRunAux_processed env provides [] h
  · exact fun h => unloadRunAux_processed env provides.reverse h

/-- An activation environment where every path exists, every prompt is
accepted and psql always succeeds, on a 9.2.0 server. -/
def envNative : PgEnv :=
  ⟨(9, 2, 0), "sh", fun _ => true, fun _ => true, fun _ => 0⟩

/-- C2 witness: a two-object distribution loads in listed order and
unloads in the exact reverse order. -/
theorem c2_provides_order_witness :
    processedLoad (loadRun envNative [("a", none), ("b", some "b.sql")]).1 =
      [("a", none), ("b", some "b.sql")] ∧
    processedUnload
        (unloadRun envNative [("a", none), ("b", some "b.sql")]).1 =
      [("b", some "b.sql"), ("a", none)] := by
  have h := c2_provides_order envNative [("a", none), ("b", some "b.sql")]
  refine ⟨h.1 rfl, ?_⟩
  have h2 := h.2 rfl
  simpa using h2

/-! ### C3 — version gating of native extension activation -/

/-- The guard at the top of both `load_ext`s: the hint, when present,
must look like an SQL file. -/
def sqlHintOk : Option String → Bool
  | none => true
  | some f => strEndsWith f ".sql"

theorem loadExt_no_native (env : PgEnv) (loaded : List String)
    (name : String) (hint : Option String)
    (hpg : pgAtLeast910 env.pgver = false) :
    (loadExt env loaded name hint).1.filter nativeStep = [] := by
  have hfileEv : ∀ e ∈ (loadExtFile env loaded name hint).1,
      nativeStep e = false :=
    fun e he => fileStep_not_native e (loadExtFile_events env loaded name hint e he)
  have hcoreEq : loadExtCore env loaded name hint =
      loadExtFile env loaded name hint := by
    simp only [loadExtCore]
    rw [hpg]
    simp
  have h2 : (loadExtCore env loaded name hint).1.filter nativeStep = [] := by
    rw [hcoreEq]
    exact List.filter_eq_nil_iff.mpr (fun e he => by
      have := hfileEv e he
      simp [this])
  cases hint with
  | none =>
    have h1 : (loadExt env loaded name none).1 =
        [Ev.debugLoad name none] ++ (loadExtCore env loaded name none).1 := rfl
    rw [h1, List.filter_append, h2]
    rfl
  | some f =>
    by_cases hf : strEndsWith f ".sql"
    · have h1 : (loadExt env loaded name (some f)).1 =
          [Ev.debugLoad name (some f)] ++
            (loadExtCore env loaded name (some f)).1 := by
        simp only [loadExt]
        rw [if_pos hf]
      rw [h1, List.filter_append, h2]
      rfl
    · have h1 : (loadExt env loaded name (some f)).1 =
          [Ev.debugLoad name (some f)] ++ [Ev.skipNonSql name f] := by
        simp only [loadExt]
        rw [if_neg hf]
      rw [h1]
      rfl

theorem unloadExt_no_native (env : PgEnv) (name : String)
    (hint : Option String) (hpg : pgAtLeast910 env.pgver = false) :
    (unloadExt env name hint).1.filter nativeStep = [] := by
  have hfileEv : ∀ e ∈ (unloadExtFile env name hint).1,
      nativeStep e = false :=
    fun e he => fileStep_not_native e (unloadExtFile_events env name hint e he)
  have hcoreEq : unloadExtCore env name hint = unloadExtFile env name hint := by
    simp only [unloadExtCore]
    rw [hpg]
    simp
  have h2 : (unloadExtCore env name hint).1.filter nativeStep = [] := by
    rw [hcoreEq]
    exact List.filter_eq_nil_iff.mpr (fun e he => by
      have := hfileEv e he
      simp [this])
  cases hint with
  | none =>
    have h1 : (unloadExt env name none).1 =
        [Ev.debugUnload name none] ++ (unloadExtCore env name none).1 := rfl
    rw [h1, List.filter_append, h2]
    rfl
  | some f =>
    by_cases hf : strEndsWith f ".sql"
    · have h1 : (unloadExt env name (some f)).1 =
          [Ev.debugUnload name (some f)] ++
            (unloadExtCore env name (some f)).1 := by
        simp only [unloadExt]
        rw [if_pos hf]
      rw [h1, List.filter_append, h2]
      rfl
    · have h1 : (unloadExt env name (some f)).1 =
          [Ev.debugUnload name (some f)] ++ [Ev.skipNonSql name f] := by
        simp only [unloadExt]
        rw [if_neg hf]
      rw [h1]
      rfl

/-- C3 counterexample: on a 9.2.0 server with a control file present
for `foo`, loading `foo` with the non-SQL file hint `foo.so` skips the
object entirely — `CREATE EXTENSION` is not executed, contradicting
the claim that a control file always triggers native activation at
9.1.0 or later. -/
theorem c3_nonsql_hint_skips_native :
    pgAtLeast910 envNative.pgver = true ∧
    is_extension envNative "foo" = true ∧
    (loadExt envNative [] "foo" (some "foo.so")).1 =
      [Ev.debugLoad "foo" (some "foo.so"), Ev.skipNonSql "foo" "foo.so"] ∧
    Ev.runSql (.data ("CREATE EXTENSION foo;")) ∉
      (loadExt envNative [] "foo" (some "foo.so")).1 := by
  decide

/-- C3 (amended): below server version 9.1.0 neither `load` nor
`unload` ever executes a native `CREATE`/`DROP EXTENSION`, regardless
of control files; at 9.1.0 or later, for an object whose file hint (if
any) ends in `.sql` and whose control file exists, the activation is
exactly the entry log plus the native statement — the SQL-file lookup,
confirmation and file-execution path is never reached. -/
theorem c3_version_gating (env : PgEnv) (loaded : List String)
    (name : String) (hint : Option String) :
    (pgAtLeast910 env.pgver = false →
      (loadExt env loaded name hint).1.filter nativeStep = [] ∧
      (unloadExt env name hint).1.filter nativeStep = []) ∧
    (pgAtLeast910 env.pgver = true → is_extension env name = true →
      sqlHintOk hint = true →
      (loadExt env loaded name hint).1 =
        [Ev.debugLoad name hint,
         Ev.runSql (.data ("CREATE EXTENSION " ++ name ++ ";"))] ∧
      (loadExt env loaded name hint).2.1 = loaded ∧
      (unloadExt env name hint).1 =
        [Ev.debugUnload name hint,
         Ev.runSql (.data ("DROP EXTENSION " ++ name ++ ";"))]) := by
  constructor
  · intro hpg
    exact ⟨loadExt_no_native env loaded name hint hpg,
           unloadExt_no_native env name hint hpg⟩
  · intro hpg hext hok
    have hcore1 : (loadExtCore env loaded name hint).1 =
        [Ev.runSql (.data ("CREATE EXTENSION " ++ name ++ ";"))] ∧
        (loadExtCore env loaded name hint).2.1 = loaded := by
      simp only [loadExtCore]
      rw [hpg, hext]
      simp [load_sql]
    have hcore2 : (unloadExtCore env name hint).1 =
        [Ev.runSql (.data ("DROP EXTENSION " ++ name ++ ";"))] := by
      simp only [unloadExtCore]
      rw [hpg, hext]
      simp [load_sql]
    cases hint with
    | none =>
      refine ⟨?_, ?_, ?_⟩
      · show [Ev.debugLoad name none] ++ (loadExtCore env loaded name none).1 = _
        rw [hcore1.1]
        rfl
      · show (loadExtCore env loaded name none).2.1 = loaded
        exact hcore1.2
      · show [Ev.debugUnload name none] ++ (unloadExtCore env name none).1 = _
        rw [hcore2]
        rfl
    | some f =>
      have hf : strEndsWith f ".sql" = true := by simpa [sqlHintOk] using hok
      have h1 : loadExt env loaded name (some f) =
          ([Ev.debugLoad name (some f)] ++ (loadExtCore env loaded name (some f)).1,
           (loadExtCore env loaded name (some f)).2.1,
           (loadExtCore env loaded name (some f)).2.2) := by
        simp only [loadExt]
        rw [if_pos hf]
      have h2 : unloadExt env name (some f) =
          ([Ev.debugUnload name (some f)] ++ (unloadExtCore env name (some f)).1,
           (unloadExtCore env name (some f)).2) := by
        simp only [unloadExt]
        rw [if_pos hf]
      refine ⟨?_, ?_, ?_⟩
      · rw [h1]
        show [Ev.debugLoad name (some f)] ++ (loadExtCore env loaded name (some f)).1 = _
        rw [hcore1.1]
        rfl
      · rw [h1]
        exact hcore1.2
      · rw [h2]
        show [Ev.debugUnload name (some f)] ++ (unloadExtCore env name (some f)).1 = _
        rw [hcore2]
        rfl

/-- An activation environment on an 8.4.0 server where every control
file exists, every prompt is accepted and psql always succeeds. -/
def envOld : PgEnv :=
  ⟨(8, 4, 0), "sh", fun _ => true, fun _ => true, fun _ => 0⟩

/-- C3 (amended) witness: on an 8.4.0 server no native statement is run
even though the control file exists; on a 9.2.0 server with a control
file the activation is exactly the native statement. -/
theorem c3_version_gating_witness :
    (loadExt envOld [] "foo" (some "foo.sql")).1.filter nativeStep = [] ∧
    (loadExt envNative [] "foo" (some "foo.sql")).1 =
      [Ev.debugLoad "foo" (some "foo.sql"),
       Ev.runSql (.data ("CREATE EXTENSION " ++ "foo" ++ ";"))] := by
  have h1 := (c3_version_gating envOld [] "foo" (some "foo.sql")).1 (by decide)
  have h2 := (c3_version_gating envNative [] "foo" (some "foo.sql")).2
    (by decide) (by decide) (by decide)
  exact ⟨h1.1, h2.1⟩

/-! ### C8 — a confirmation decline aborts the whole batch -/

/-- An activation environment on a 9.2.0 server with no control files
where the user declines every prompt. -/
def envDecline : PgEnv :=
  ⟨(9, 2, 0), "sh", fun _ => false, fun _ => false, fun _ => 0⟩

/-- C8 counterexample: with two objects in `provides`, declining the
first object's confirmation ends the whole `load` run with the
user-cancellation error — the second object is never processed,
contradicting the claim that the rest of the batch still runs. -/
theorem c8_decline_stops_batch :
    (loadRun envDecline [("a", some "a.sql"), ("b", some "b.sql")]).2 =
      .error .userAborted ∧
    processedLoad
        (loadRun envDecline [("a", some "a.sql"), ("b", some "b.sql")]).1 =
      [("a", some "a.sql")] :=
  ⟨rfl, by decide⟩

/-- C8 (amended): declining a confirmation prompt raises the
user-cancellation error out of the whole run: the run's trace ends at
the declined object and none of the remaining `provides` entries is
processed, for `load` and for `unload` alike. -/
theorem c8_decline_aborts (env : PgEnv) (n : String) (f : Option String)
    (rest : List (String × Option String)) (loaded : List String)
    (hpg : pgAtLeast910 env.pgver = true)
    (hctl : is_extension env n = false)
    (hok : sqlHintOk f = true) :
    (env.confirmAck (.looseLoad n) = false →
      loadRunAux env ((n, f) :: rest) loaded =
        ([Ev.debugLoad n f, Ev.confirmAsked (.looseLoad n)],
         .error .userAborted)) ∧
    (env.confirmAck (.looseUnload n) = false →
      unloadRunAux env ((n, f) :: rest) =
        ([Ev.debugUnload n f, Ev.confirmAsked (.looseUnload n)],
         .error .userAborted)) := by
  constructor
  · intro hdec
    have hcore : loadExtCore env loaded n f =
        ([Ev.confirmAsked (.looseLoad n)], loaded, .error .userAborted) := by
      simp only [loadExtCore]
      rw [hpg, hctl]
      simp [confirmStep, hdec]
    have hload : loadExt env loaded n f =
        ([Ev.debugLoad n f, Ev.confirmAsked (.looseLoad n)],
         loaded, .error .userAborted) := by
      cases f with
      | none =>
        have h1 : loadExt env loaded n none =
            ([Ev.debugLoad n none] ++ (loadExtCore env loaded n none).1,
             (loadExtCore env loaded n none).2.1,
             (loadExtCore env loaded n none).2.2) := rfl
        rw [h1, hcore]
        rfl
      | some s =>
        have hf : strEndsWith s ".sql" = true := by simpa [sqlHintOk] using hok
        have h1 : loadExt env loaded n (some s) =
            ([Ev.debugLoad n (some s)] ++ (loadExtCore env loaded n (some s)).1,
             (loadExtCore env loaded n (some s)).2.1,
             (loadExtCore env loaded n (some s)).2.2) := by
          simp only [loadExt]
          rw [if_pos hf]
        rw [h1, hcore]
        rfl
    simp only [loadRunAux]
    rw [hload]
  · intro hdec
    have hcore : unloadExtCore env n f =
        ([Ev.confirmAsked (.looseUnload n)], .error .userAborted) := by
      simp only [unloadExtCore]
      rw [hpg, hctl]
      simp [confirmStep, hdec]
    have hunload : unloadExt env n f =
        ([Ev.debugUnload n f, Ev.confirmAsked (.looseUnload n)],
         .error .userAborted) := by
      cases f with
      | none =>
        have h1 : unloadExt env n none =
            ([Ev.debugUnload n none] ++ (unloadExtCore env n none).1,
             (unloadExtCore env n none).2) := rfl
        rw [h1, hcore]
        rfl
      | some s =>
        have hf : strEndsWith s ".sql" = true := by simpa [sqlHintOk] using hok
        have h1 : unloadExt env n (some s) =
            ([Ev.debugUnload n (some s)] ++ (unloadExtCore env n (some s)).1,
             (unloadExtCore env n (some s)).2) := by
          simp only [unloadExt]
          rw [if_pos hf]
        rw [h1, hcore]
        rfl
    simp only [unloadRunAux]
    rw [hunload]

/-- C8 (amended) witness: the declined first object ends both the load
loop and the unload loop immediately. -/
theorem c8_decline_aborts_witness :
    loadRunAux envDecline [("a", some "a.sql"), ("b", some "b.sql")] [] =
      ([Ev.debugLoad "a" (some "a.sql"),
        Ev.confirmAsked (.looseLoad "a")], .error .userAborted) ∧
    unloadRunAux envDecline [("a", some "a.sql"), ("b", some "b.sql")] =
      ([Ev.debugUnload "a" (some "a.sql"),
        Ev.confirmAsked (.looseUnload "a")], .error .userAborted) := by
  have h := c8_decline_aborts envDecline "a" (some "a.sql")
    [("b", some "b.sql")] [] (by decide) (by decide) (by decide)
  exact ⟨h.1 rfl, h.2 rfl⟩

/-! ### C4 — per-run idempotence of load; unload unguarded -/

/-- Events that precede the final execute-or-skip decision of the
SQL-file path: entry logs, prompts and candidate checks. -/
def preStep : Ev → Bool
  | .debugLoad _ _ => true
  | .debugUnload _ _ => true
  | .confirmAsked _ => true
  | .checking _ => true
  | _ => false

theorem not_mem_of_preStep (pre : List Ev)
    (h : ∀ e ∈ pre, preStep e = true) :
    (∀ inp, Ev.runSql inp ∉ pre) ∧ (∀ s, Ev.skipLoaded s ∉ pre) :=
  ⟨fun inp hm => by have := h _ hm; simp [preStep] at this,
   fun s hm => by have := h _ hm; simp [preStep] at this⟩

theorem find_sql_file_preStep (env : PgEnv) (name s : String) :
    ∀ e ∈ (find_sql_file env name s).1, preStep e = true := by
  intro e he
  obtain ⟨p, rfl⟩ := find_sql_file_events env name s e he
  rfl

theorem loadExtCore_file_path (env : PgEnv) (loaded : List String)
    (name : String) (hint : Option String)
    (hb : pgAtLeast910 env.pgver = false ∨
          (is_extension env name = false ∧
           env.confirmAck (.looseLoad name) = true)) :
    ∃ pfx : List Ev, (∀ e ∈ pfx, preStep e = true) ∧
      loadExtCore env loaded name hint =
        (pfx ++ (loadExtFile env loaded name hint).1,
         (loadExtFile env loaded name hint).2.1,
         (loadExtFile env loaded name hint).2.2) := by
  rcases hb with hpg | ⟨hctl, hack⟩
  · refine ⟨[], by simp, ?_⟩
    simp only [loadExtCore]
    rw [hpg]
    simp
  · by_cases hpg : pgAtLeast910 env.pgver
    · refine ⟨[Ev.confirmAsked (.looseLoad name)], by simp [preStep], ?_⟩
      simp only [loadExtCore]
      rw [hpg, hctl]
      simp [confirmStep, hack]
    · refine ⟨[], by simp, ?_⟩
      have hpg' : pgAtLeast910 env.pgver = false := by simpa using hpg
      simp only [loadExtCore]
      rw [hpg']
      simp

theorem unloadExtCore_file_path (env : PgEnv)
    (name : String) (hint : Option String)
    (hb : pgAtLeast910 env.pgver = false ∨
          (is_extension env name = false ∧
           env.confirmAck (.looseUnload name) = true)) :
    ∃ pfx : List Ev, (∀ e ∈ pfx, preStep e = true) ∧
      unloadExtCore env name hint =
        (pfx ++ (unloadExtFile env name hint).1,
         (unloadExtFile env name hint).2) := by
  rcases hb with hpg | ⟨hctl, hack⟩
  · refine ⟨[], by simp, ?_⟩
    simp only [unloadExtCore]
    rw [hpg]
    simp
  · by_cases hpg : pgAtLeast910 env.pgver
    · refine ⟨[Ev.confirmAsked (.looseUnload name)], by simp [preStep], ?_⟩
      simp only [unloadExtCore]
      rw [hpg, hctl]
      simp [confirmStep, hack]
    · refine ⟨[], by simp, ?_⟩
      have hpg' : pgAtLeast910 env.pgver = false := by simpa using hpg
      simp only [unloadExtCore]
      rw [hpg']
      simp

theorem loadExt_file_path (env : PgEnv) (loaded : List String)
    (name : String) (hint : Option String)
    (hhint : sqlHintOk hint = true)
    (hb : pgAtLeast910 env.pgver = false ∨
          (is_extension env name = false ∧
           env.confirmAck (.looseLoad name) = true)) :
    ∃ pre : List Ev, (∀ e ∈ pre, preStep e = true) ∧
      loadExt env loaded name hint =
        (pre ++ (loadExtFile env loaded name hint).1,
         (loadExtFile env loaded name hint).2.1,
         (loadExtFile env loaded name hint).2.2) := by
  obtain ⟨pfx, hpfx, hcore⟩ := loadExtCore_file_path env loaded name hint hb
  have hmem : ∀ e ∈ Ev.debugLoad name hint :: pfx, preStep e = true := by
    intro e he
    rcases List.mem_cons.mp he with rfl | hm
    · rfl
    · exact hpfx e hm
  cases hint with
  | none =>
    refine ⟨Ev.debugLoad name none :: pfx, hmem, ?_⟩
    have h1 : loadExt env loaded name none =
        ([Ev.debugLoad name none] ++ (loadExtCore env loaded name none).1,
         (loadExtCore env loaded name none).2.1,
         (loadExtCore env loaded name none).2.2) := rfl
    rw [h1, hcore]
    simp
  | some f =>
    have hf : strEndsWith f ".sql" = true := by simpa [sqlHintOk] using hhint
    refine ⟨Ev.debugLoad name (some f) :: pfx, hmem, ?_⟩
    have h1 : loadExt env loaded name (some f) =
        ([Ev.debugLoad name (some f)] ++ (loadExtCore env loaded name (some f)).1,
         (loadExtCore env loaded name (some f)).2.1,
         (loadExtCore env loaded name (some f)).2.2) := by
      simp only [loadExt]
      rw [if_pos hf]
    rw [h1, hcore]
    simp

theorem unloadExt_file_path (env : PgEnv)
    (name : String) (hint : Option String)
    (hhint : sqlHintOk hint = true)
    (hb : pgAtLeast910 env.pgver = false ∨
          (is_extension env name = false ∧
           env.confirmAck (.looseUnload name) = true)) :
    ∃ pre : List Ev, (∀ e ∈ pre, preStep e = true) ∧
      unloadExt env name hint =
        (pre ++ (unloadExtFile env name hint).1,
         (unloadExtFile env name hint).2) := by
  obtain ⟨pfx, hpfx, hcore⟩ := unloadExtCore_file_path env name hint hb
  have hmem : ∀ e ∈ Ev.debugUnload name hint :: pfx, preStep e = true := by
    intro e he
    rcases List.mem_cons.mp he with rfl | hm
    · rfl
    · exact hpfx e hm
  cases hint with
  | none =>
    refine ⟨Ev.debugUnload name none :: pfx, hmem, ?_⟩
    have h1 : unloadExt env name none =
        ([Ev.debugUnload name none] ++ (unloadExtCore env name none).1,
         (unloadExtCore env name none).2) := rfl
    rw [h1, hcore]
    simp
  | some f =>
    have hf : strEndsWith f ".sql" = true := by simpa [sqlHintOk] using hhint
    refine ⟨Ev.debugUnload name (some f) :: pfx, hmem, ?_⟩
    have h1 : unloadExt env name (some f) =
        ([Ev.debugUnload name (some f)] ++ (unloadExtCore env name (some f)).1,
         (unloadExtCore env name (some f)).2) := by
      simp only [unloadExt]
      rw [if_pos hf]
    rw [h1, hcore]
    simp

/-- In the reachable SQL-file path with a successful find, an accepted
guessed-file prompt and a succeeding psql, `Load.load_ext` either skips
(path already loaded) or executes-and-registers, after prompt/check
events only. -/
theorem loadExt_executes (env : PgEnv) (name : String) (hint : Option String)
    (fn : String)
    (hhint : sqlHintOk hint = true)
    (hb : pgAtLeast910 env.pgver = false ∨
          (is_extension env name = false ∧
           env.confirmAck (.looseLoad name) = true))
    (hfind : (find_sql_file env name (hint.getD (name ++ ".sql"))).2 = .ok fn)
    (hconf : hint = none → env.confirmAck (.guessedFile name fn) = true)
    (hpsql : env.psqlExit (.file fn) = 0) :
    ∀ loaded : List String, ∃ pre : List Ev,
      (∀ e ∈ pre, preStep e = true) ∧
      loadExt env loaded name hint =
        (pre ++ (if fn ∈ loaded then [Ev.skipLoaded fn]
                 else [Ev.runSql (.file fn)]),
         if fn ∈ loaded then loaded else loaded ++ [fn],
         .ok ()) := by
  intro loaded
  obtain ⟨pre0, hpre0, hload⟩ := loadExt_file_path env loaded name hint hhint hb
  cases hint with
  | some f =>
    have hfind' : (find_sql_file env name f).2 = .ok fn := by simpa using hfind
    have hfile := loadExtFile_some_ok env loaded name f fn hfind'
    refine ⟨pre0 ++ (find_sql_file env name f).1, ?_, ?_⟩
    · intro e he
      rcases List.mem_append.mp he with hm | hm
      · exact hpre0 e hm
      · exact find_sql_file_preStep env name f e hm
    · rw [hload, hfile]
      by_cases hmem : fn ∈ loaded <;>
        simp [hmem, hpsql, List.append_assoc]
  | none =>
    have hfind' : (find_sql_file env name (name ++ ".sql")).2 = .ok fn := by
      simpa using hfind
    have hfile := loadExtFile_none_ok env loaded name fn hfind' (hconf rfl)
    refine ⟨pre0 ++ (find_sql_file env name (name ++ ".sql")).1 ++
      [Ev.confirmAsked (.guessedFile name fn)], ?_, ?_⟩
    · intro e he
      rcases List.mem_append.mp he with hm | hm
      · rcases List.mem_append.mp hm with hm2 | hm2
        · exact hpre0 e hm2
        · exact find_sql_file_preStep env name _ e hm2
      · rcases List.mem_singleton.mp hm with rfl
        rfl
    · rw [hload, hfile]
      by_cases hmem : fn ∈ loaded <;>
        simp [hmem, hpsql, List.append_assoc]

/-- C4: within one run two load activations resolving to the same SQL
path execute the file exactly once (the second only logs the skip and
leaves the loaded set unchanged); a fresh run with an empty loaded set
executes it again; unload has no guard and executes its uninstall
script on every invocation, immediately after a confirmation prompt. -/
theorem c4_load_idempotent (env : PgEnv) (loaded : List String)
    (name : String) (hint : Option String) (fn ufn : String)
    (hhint : sqlHintOk hint = true)
    (hb : pgAtLeast910 env.pgver = false ∨
          (is_extension env name = false ∧
           env.confirmAck (.looseLoad name) = true ∧
           env.confirmAck (.looseUnload name) = true))
    (hfind : (find_sql_file env name (hint.getD (name ++ ".sql"))).2 = .ok fn)
    (hconf : hint = none → env.confirmAck (.guessedFile name fn) = true)
    (hpsql : env.psqlExit (.file fn) = 0)
    (hnew : fn ∉ loaded)
    (hufind : (find_sql_file env name
        ("uninstall_" ++ hint.getD (name ++ ".sql"))).2 = .ok ufn)
    (huconf : env.confirmAck (.unloadFile name ufn) = true) :
    ((loadExt env loaded name hint).1.count (Ev.runSql (.file fn)) = 1 ∧
     (loadExt env loaded name hint).2.1 = loaded ++ [fn] ∧
     (loadExt env loaded name hint).2.2 = .ok ()) ∧
    ((loadExt env (loaded ++ [fn]) name hint).1.count
        (Ev.runSql (.file fn)) = 0 ∧
     Ev.skipLoaded fn ∈ (loadExt env (loaded ++ [fn]) name hint).1 ∧
     (loadExt env (loaded ++ [fn]) name hint).2.1 = loaded ++ [fn] ∧
     (loadExt env (loaded ++ [fn]) name hint).2.2 = .ok ()) ∧
    ((loadExt env [] name hint).1.count (Ev.runSql (.file fn)) = 1) ∧
    (∃ pre, (unloadExt env name hint).1 =
      pre ++ [Ev.confirmAsked (.unloadFile name ufn),
              Ev.runSql (.file ufn)]) := by
  have hbL : pgAtLeast910 env.pgver = false ∨
      (is_extension env name = false ∧
       env.confirmAck (.looseLoad name) = true) := by
    rcases hb with h | ⟨h1, h2, _⟩
    · exact Or.inl h
    · exact Or.inr ⟨h1, h2⟩
  have hbU : pgAtLeast910 env.pgver = false ∨
      (is_extension env name = false ∧
       env.confirmAck (.looseUnload name) = true) := by
    rcases hb with h | ⟨h1, _, h3⟩
    · exact Or.inl h
    · exact Or.inr ⟨h1, h3⟩
  have hexec := loadExt_executes env name hint fn hhint hbL hfind hconf hpsql
  refine ⟨?_, ?_, ?_, ?_⟩
  · obtain ⟨pre, hpre, heq⟩ := hexec loaded
    rw [heq]
    have hz : pre.count (Ev.runSql (.file fn)) = 0 :=
      List.count_eq_zero.mpr ((not_mem_of_preStep pre hpre).1 _)
    simp [hnew, List.count_append, hz]
  · obtain ⟨pre, hpre, heq⟩ := hexec (loaded ++ [fn])
    have hmem : fn ∈ loaded ++ [fn] := by simp
    rw [heq]
    have hz : pre.count (Ev.runSql (.file fn)) = 0 :=
      List.count_eq_zero.mpr ((not_mem_of_preStep pre hpre).1 _)
    simp [hmem, List.count_append, hz]
  · obtain ⟨pre, hpre, heq⟩ := hexec []
    rw [heq]
    have hz : pre.count (Ev.runSql (.file fn)) = 0 :=
      List.count_eq_zero.mpr ((not_mem_of_preStep pre hpre).1 _)
    simp [List.count_append, hz]
  · obtain ⟨preU, hpreU, hU⟩ := unloadExt_file_path env name hint hhint hbU
    have hufile := unloadExtFile_ok env name hint ufn hufind huconf
    refine ⟨preU ++ (find_sql_file env name
      ("uninstall_" ++ hint.getD (name ++ ".sql"))).1, ?_⟩
    rw [hU, hufile]
    simp [List.append_assoc]

/-- An activation environment on a 9.0.0 server where exactly
`sh/a/a.sql` and `sh/a/uninstall_a.sql` exist, every prompt is accepted
and psql always succeeds. -/
def envFilePath : PgEnv :=
  ⟨(9, 0, 0), "sh",
   fun s => s == "sh/a/a.sql" || s == "sh/a/uninstall_a.sql",
   fun _ => true, fun _ => 0⟩

/-- C4 witness: loading `a` twice in one run executes `sh/a/a.sql`
once then skips it; a fresh run executes it again; unloading executes
the uninstall script right after its confirmation prompt. -/
theorem c4_load_idempotent_witness :
    (loadExt envFilePath [] "a" (some "a.sql")).1.count
        (Ev.runSql (.file "sh/a/a.sql")) = 1 ∧
    (loadExt envFilePath ([] ++ ["sh/a/a.sql"]) "a" (some "a.sql")).1.count
        (Ev.runSql (.file "sh/a/a.sql")) = 0 ∧
    Ev.skipLoaded "sh/a/a.sql" ∈
      (loadExt envFilePath ([] ++ ["sh/a/a.sql"]) "a" (some "a.sql")).1 ∧
    (∃ pre, (unloadExt envFilePath "a" (some "a.sql")).1 =
      pre ++ [Ev.confirmAsked (.unloadFile "a" "sh/a/uninstall_a.sql"),
              Ev.runSql (.file "sh/a/uninstall_a.sql")]) := by
  have h := c4_load_idempotent envFilePath [] "a" (some "a.sql")
    "sh/a/a.sql" "sh/a/uninstall_a.sql"
    (by decide) (Or.inl (by decide)) rfl
    (by intro hh; cases hh) rfl (by simp) rfl rfl
  exact ⟨h.1.1, h.2.1.1, h.2.1.2.1, h.2.2.2⟩

/-! ### C10 — the `uninstall_` name used by unload's file lookup -/

theorem baseStep_foldl_irrel (l : List Char) (hl : l.contains '/' = true) :
    ∀ a b : List Char, l.foldl baseStep a = l.foldl baseStep b := by
  induction l with
  | nil => simp at hl
  | cons c cs ih =>
    intro a b
    by_cases hc : c = '/'
    · subst hc
      simp only [List.foldl_cons]
      rw [show baseStep a '/' = [] from by simp [baseStep],
          show baseStep b '/' = [] from by simp [baseStep]]
    · have hcs : cs.contains '/' = true := by
        simp only [List.contains_cons, Bool.or_eq_true] at hl
        rcases hl with h | h
        · exact absurd (by simpa using h : ('/' : Char) = c).symm hc
        · exact h
      simp only [List.foldl_cons]
      exact ih hcs _ _

/-- Prepending anything to a path that contains a slash does not
change its basename (the prepended text lands before the last `/`). -/
theorem basename_append_of_contains (p s : String)
    (hs : s.data.contains '/' = true) :
    basename (p ++ s) = basename s := by
  unfold basename
  rw [String.data_append, List.foldl_append]
  exact congrArg String.mk (baseStep_foldl_irrel s.data hs _ _)

/-- The first candidate `find_sql_file` checks is always
`<sharedir>/<name>/<basename of the requested file>`. -/
theorem find_first_checking (env : PgEnv) (name s : String) :
    ∃ tail, (find_sql_file env name s).1 =
      Ev.checking (env.sharedir ++ "/" ++ (name ++ "/" ++ basename s)) ::
        tail := by
  by_cases hex : env.fileExists
      (env.sharedir ++ "/" ++ (name ++ "/" ++ basename s))
  · exact ⟨[], by simp [find_sql_file, scanTries, hex]⟩
  · exact ⟨(scanTries env [name ++ "/" ++ basename s]
        [rsplitDot (basename s) ++ "/" ++ basename s,
         "contrib/" ++ basename s]).1,
      by simp [find_sql_file, scanTries, hex]⟩

/-- C10: whenever unload's activation reaches the SQL-file path with an
explicit hint ending in `.sql`, the filename looked up is
`basename('uninstall_' + hint)` — the first path checked is
`<sharedir>/<name>/<that basename>` — and for a hint containing a
directory component the `uninstall_` text is lost entirely, because the
basename is taken after prepending. -/
theorem c10_unload_basename (env : PgEnv) (name f : String)
    (hf : strEndsWith f ".sql" = true)
    (hreach : pgAtLeast910 env.pgver = false ∨
        (is_extension env name = false ∧
         env.confirmAck (.looseUnload name) = true)) :
    (∃ pre tail, (unloadExt env name (some f)).1 =
        pre ++ Ev.checking (env.sharedir ++ "/" ++
          (name ++ "/" ++ basename ("uninstall_" ++ f))) :: tail) ∧
    (f.data.contains '/' = true →
      basename ("uninstall_" ++ f) = basename f) := by
  constructor
  · obtain ⟨pre0, hpre0, hU⟩ := unloadExt_file_path env name (some f)
      (by simpa [sqlHintOk] using hf) hreach
    obtain ⟨t2, hsplit⟩ : ∃ t2, (unloadExtFile env name (some f)).1 =
        (find_sql_file env name ("uninstall_" ++ f)).1 ++ t2 := by
      cases hfr : (find_sql_file env name ("uninstall_" ++ f)).2 with
      | error er =>
        refine ⟨[], ?_⟩
        rw [unloadExtFile_err env name (some f) er (by simpa using hfr)]
        simp
      | ok fn =>
        by_cases hack : env.confirmAck (.unloadFile name fn)
        · refine ⟨[Ev.confirmAsked (.unloadFile name fn),
            Ev.runSql (.file fn)], ?_⟩
          rw [unloadExtFile_ok env name (some f) fn (by simpa using hfr) hack]
          simp
        · refine ⟨[Ev.confirmAsked (.unloadFile name fn)], ?_⟩
          rw [unloadExtFile_declined env name (some f) fn (by simpa using hfr)
            (by simpa using hack)]
          simp
    obtain ⟨tail0, hfirst⟩ := find_first_checking env name ("uninstall_" ++ f)
    refine ⟨pre0, tail0 ++ t2, ?_⟩
    have h1 : (unloadExt env name (some f)).1 =
        pre0 ++ (unloadExtFile env name (some f)).1 := by rw [hU]
    rw [h1, hsplit, hfirst]
    simp
  · intro hsl
    exact basename_append_of_contains "uninstall_" f hsl

/-- C10 witness: unloading `bar` with the hint `sql/foo.sql` on an
8.4.0 server looks for `foo.sql` under `bar/` — the `uninstall_` text
is lost because the hint has a directory component. -/
theorem c10_unload_basename_witness :
    (∃ pre tail, (unloadExt envOld "bar" (some "sql/foo.sql")).1 =
        pre ++ Ev.checking (envOld.sharedir ++ "/" ++
          ("bar" ++ "/" ++ basename ("uninstall_" ++ "sql/foo.sql"))) ::
          tail) ∧
    basename ("uninstall_" ++ "sql/foo.sql") = basename "sql/foo.sql" := by
  have h := c10_unload_basename envOld "bar" "sql/foo.sql" (by decide)
    (Or.inl (by decide))
  exact ⟨h.1, h.2 (by decide)⟩

end Pgxn
